import Mathlib

/-
Verification of convert-burp-suite-http-proxy-history-to-csv.py.

The Python source is shallowly embedded below.  Text is modelled at the
character level (Lean Char = Unicode scalar value, matching Python str
code points); byte strings are modelled as List Nat with values < 256.
Python exceptions are modelled with Except PyErr; an uncaught exception
aborts the run, which corresponds to a .error result of the whole
conversion function.
-/

namespace BurpConvert

/-- Python exception kinds raised by the code paths modelled here. -/
inductive PyErr where
  | valueError (msg : String)
  | binasciiError (msg : String)
  | httpException (msg : String)
  | attributeError (msg : String)
  | typeError (msg : String)
  | keyError (msg : String)
  | indexError (msg : String)
  deriving Repr, DecidableEq, Inhabited

/- ------------------------------------------------------------------
   Generic helpers over lists of characters
   ------------------------------------------------------------------ -/

/-- Python str.split(sep, 1) when sep occurs: the text before and after the
first occurrence of sep.  Returns none when sep does not occur (in which
case Python returns a one-element list and two-name unpacking raises
ValueError).  sep is assumed non-empty, as at both call sites. -/
def splitOnce (sep : List Char) : List Char → Option (List Char × List Char)
  | [] => none
  | c :: rest =>
    if (c :: rest).take sep.length = sep then some ([], (c :: rest).drop sep.length)
    else match splitOnce sep rest with
      | none => none
      | some (pre, post) => some (c :: pre, post)

/-- Split a character stream into lines the way BytesIO.readline does:
each line ends with a newline character, except possibly the final one;
the empty result list corresponds to immediate EOF. -/
def readLines : List Char → List (List Char)
  | [] => []
  | c :: rest =>
    if c = '\n' then ['\n'] :: readLines rest
    else match readLines rest with
      | [] => [[c]]
      | l :: ls => (c :: l) :: ls

/-- Python str.lower restricted to ASCII, which is all the header data the
parser is used on (Python's full-Unicode lower agrees on ASCII). -/
def lowerChar (c : Char) : Char :=
  if 'A' ≤ c ∧ c ≤ 'Z' then Char.ofNat (c.toNat + 32) else c

def lowerStr (s : String) : String := String.mk (s.data.map lowerChar)

/-- Strict lexicographic comparison of character lists by code point,
matching Python str comparison. -/
def ltCharList : List Char → List Char → Bool
  | [], [] => false
  | [], _ :: _ => true
  | _ :: _, [] => false
  | a :: as, b :: bs =>
    if a.toNat < b.toNat then true
    else if b.toNat < a.toNat then false
    else ltCharList as bs

/- ------------------------------------------------------------------
   base64decode (source lines 91-94)

       def base64decode(line):
           decoded = base64.b64decode(line)
           replace = 'backslashreplace' if sys.version_info[0] >= 3 else 'replace'
           return decoded.decode('UTF-8', errors=replace)

   base64.b64decode(str) first ASCII-encodes the argument (ValueError on
   any non-ASCII character) and then calls binascii.a2b_base64 in
   non-strict mode, embedded below following CPython's quad loop:
   non-alphabet characters are skipped, '=' terminates a quad once at
   least two data characters of it have been seen, and leftover data
   characters at the end raise binascii.Error.
   ------------------------------------------------------------------ -/

def b64Digit (c : Char) : Option Nat :=
  if 'A' ≤ c ∧ c ≤ 'Z' then some (c.toNat - 65)
  else if 'a' ≤ c ∧ c ≤ 'z' then some (c.toNat - 97 + 26)
  else if '0' ≤ c ∧ c ≤ '9' then some (c.toNat - 48 + 52)
  else if c = '+' then some 62
  else if c = '/' then some 63
  else none

/-- CPython binascii.a2b_base64, non-strict mode.  State: position inside
the current quad (0-3), the pending bits of the previous data character,
and the count of consecutive pad characters seen at quad position >= 2. -/
def a2bBase64Aux : Nat → Nat → Nat → List Char → Except PyErr (List Nat)
  | quadPos, _, _, [] =>
    if quadPos = 0 then .ok []
    else if quadPos = 1 then
      .error (.binasciiError "Invalid base64-encoded string: number of data characters cannot be 1 more than a multiple of 4")
    else .error (.binasciiError "Incorrect padding")
  | quadPos, leftchar, pads, c :: rest =>
    if c = '=' then
      if 2 ≤ quadPos ∧ 4 ≤ quadPos + (pads + 1) then .ok []
      else a2bBase64Aux quadPos leftchar (if 2 ≤ quadPos then pads + 1 else pads) rest
    else match b64Digit c with
      | none => a2bBase64Aux quadPos leftchar pads rest
      | some d =>
        match quadPos with
        | 0 => a2bBase64Aux 1 d 0 rest
        | 1 => (a2bBase64Aux 2 (d % 16) 0 rest).map (fun out => (leftchar * 4 + d / 16) :: out)
        | 2 => (a2bBase64Aux 3 (d % 4) 0 rest).map (fun out => (leftchar * 16 + d / 4) :: out)
        | _ => (a2bBase64Aux 0 0 0 rest).map (fun out => (leftchar * 64 + d) :: out)

/-- base64.b64decode on a str argument. -/
def b64decodeBytes (s : String) : Except PyErr (List Nat) :=
  if s.data.any (fun c => 127 < c.toNat) then
    .error (.valueError "string argument should contain only ASCII characters")
  else a2bBase64Aux 0 0 0 s.data

/-- Lowercase hex digit. -/
def hexDigit (n : Nat) : Char :=
  if n < 10 then Char.ofNat (48 + n) else Char.ofNat (97 + (n - 10))

/-- The four characters substituted for one undecodable byte by the
backslashreplace error handler. -/
def backslashEscapeByte (b : Nat) : List Char :=
  ['\\', 'x', hexDigit (b / 16 % 16), hexDigit (b % 16)]

def isCont (b : Nat) : Bool := 0x80 ≤ b ∧ b ≤ 0xBF

/-- bytes.decode('UTF-8', errors='backslashreplace'): a total decoder.
Invalid sequences are consumed per CPython's maximal-subpart policy (the
start byte together with the valid continuation bytes seen so far), each
offending byte rendered as a backslash escape. -/
def decodeUtf8Lossy : List Nat → List Char
  | [] => []
  | b :: rest =>
    if b < 0x80 then Char.ofNat b :: decodeUtf8Lossy rest
    else if 0xC2 ≤ b ∧ b ≤ 0xDF then
      match rest with
      | c1 :: rest1 =>
        if isCont c1 then Char.ofNat ((b - 0xC0) * 64 + (c1 - 0x80)) :: decodeUtf8Lossy rest1
        else backslashEscapeByte b ++ decodeUtf8Lossy (c1 :: rest1)
      | [] => backslashEscapeByte b
    else if 0xE0 ≤ b ∧ b ≤ 0xEF then
      match rest with
      | c1 :: rest1 =>
        if (if b = 0xE0 then 0xA0 ≤ c1 ∧ c1 ≤ 0xBF
            else if b = 0xED then 0x80 ≤ c1 ∧ c1 ≤ 0x9F
            else isCont c1) then
          match rest1 with
          | c2 :: rest2 =>
            if isCont c2 then
              Char.ofNat ((b - 0xE0) * 4096 + (c1 - 0x80) * 64 + (c2 - 0x80)) :: decodeUtf8Lossy rest2
            else backslashEscapeByte b ++ backslashEscapeByte c1 ++ decodeUtf8Lossy (c2 :: rest2)
          | [] => backslashEscapeByte b ++ backslashEscapeByte c1
        else backslashEscapeByte b ++ decodeUtf8Lossy (c1 :: rest1)
      | [] => backslashEscapeByte b
    else if 0xF0 ≤ b ∧ b ≤ 0xF4 then
      match rest with
      | c1 :: rest1 =>
        if (if b = 0xF0 then 0x90 ≤ c1 ∧ c1 ≤ 0xBF
            else if b = 0xF4 then 0x80 ≤ c1 ∧ c1 ≤ 0x8F
            else isCont c1) then
          match rest1 with
          | c2 :: rest2 =>
            if isCont c2 then
              match rest2 with
              | c3 :: rest3 =>
                if isCont c3 then
                  Char.ofNat ((b - 0xF0) * 262144 + (c1 - 0x80) * 4096 + (c2 - 0x80) * 64 + (c3 - 0x80)) :: decodeUtf8Lossy rest3
                else backslashEscapeByte b ++ backslashEscapeByte c1 ++ backslashEscapeByte c2 ++ decodeUtf8Lossy (c3 :: rest3)
              | [] => backslashEscapeByte b ++ backslashEscapeByte c1 ++ backslashEscapeByte c2
            else backslashEscapeByte b ++ backslashEscapeByte c1 ++ decodeUtf8Lossy (c2 :: rest2)
          | [] => backslashEscapeByte b ++ backslashEscapeByte c1
        else backslashEscapeByte b ++ decodeUtf8Lossy (c1 :: rest1)
      | [] => backslashEscapeByte b
    else backslashEscapeByte b ++ decodeUtf8Lossy rest

/-- Source function base64decode (lines 91-94), for Python 3. -/
def base64decode (line : String) : Except PyErr String :=
  (b64decodeBytes line).map (fun bs => String.mk (decodeUtf8Lossy bs))

/- ------------------------------------------------------------------
   PrimitiveCodec: html.escape and the CSV cell truncation
   ------------------------------------------------------------------ -/

/-- html.escape(s) with its default quote=True.  CPython performs five
sequential str.replace calls, ampersand first; since no replacement text
contains a character rewritten by a later pass, this equals the
character-by-character expansion below. -/
def htmlEscapeChar (c : Char) : List Char :=
  if c = '&' then "&amp;".data
  else if c = '<' then "&lt;".data
  else if c = '>' then "&gt;".data
  else if c = '"' then "&quot;".data
  else if c = Char.ofNat 39 then "&#x27;".data
  else [c]

def htmlEscape (s : String) : String :=
  String.mk (s.data.map htmlEscapeChar).flatten

/-- The spreadsheet-cell truncation inside CsvFormatHandler.row_column
(lines 199-200): applied to the cell content after any blob decoding. -/
def truncCell (content : String) : String :=
  if content ≠ "" ∧ 32760 < content.length then
    String.mk (content.data.take 32744) ++ "..[TRUNCATED!]"
  else content

/- ------------------------------------------------------------------
   HttpMessageParser: JsonFileFormatHandler.jsonFromHttp (lines 233-252)

       if not string:
         return {}
       requestLine, rest = string.split('\r\n', 1)
       method, url = requestLine.split(" ",1)
       byteStream = io.BytesIO(rest.encode("utf-8"))
       message = httpClient.parse_headers(byteStream)
       body = byteStream.read().decode("utf-8")
       res = {"method":method, "url": url}
       for key in message.keys():
         res[key] = message[key]
       res["body"] = body
       return res

   http.client.parse_headers reads lines from the stream until a blank
   line or EOF (raising on a line longer than 65536 bytes or on more than
   100 lines), joins them, and feeds them to email.parser with the
   compat32 policy; the remaining stream content is the body.  The email
   feed parser collects leading lines matching its header pattern and
   turns them into an ordered header list (name = text before the first
   colon; value = text after it, stripped of leading blanks/tabs, joined
   with any continuation lines, stripped of trailing CR/LF).  The text is
   modelled at the character level: the code's UTF-8 encode and Latin-1
   per-byte view round-trip on the ASCII header data exercised here.
   ------------------------------------------------------------------ -/

/-- Lines at which the header-reading loop of http.client stops
(b'\r\n' or b'\n'; EOF is the end of the line list). -/
def isBlankLine (l : List Char) : Bool := l = ['\r', '\n'] ∨ l = ['\n']

/-- http.client._read_headers: consume lines up to and including the
first blank line, enforcing the 65536-byte line limit and the
100-header limit.  Returns the consumed lines and the remaining lines. -/
def readHeaderBlock : Nat → List (List Char) → Except PyErr (List (List Char) × List (List Char))
  | count, [] =>
    if 100 < count + 1 then .error (.httpException "got more than 100 headers")
    else .ok ([], [])
  | count, l :: rest =>
    if 65536 < l.length then .error (.httpException "header line too long")
    else if 100 < count + 1 then .error (.httpException "got more than 100 headers")
    else if isBlankLine l then .ok ([l], rest)
    else match readHeaderBlock (count + 1) rest with
      | .error e => .error e
      | .ok (hs, rem) => .ok (l :: hs, rem)

/-- A character allowed in a header field name by the feed parser's
header pattern: printable ASCII other than space and colon. -/
def isHeaderNameChar (c : Char) : Bool :=
  (0x21 ≤ c.toNat ∧ c.toNat ≤ 0x39) ∨ (0x3B ≤ c.toNat ∧ c.toNat ≤ 0x7E)

/-- Does the line start with zero or more header-name characters followed
by a colon? -/
def hasNameColon : List Char → Bool
  | [] => false
  | c :: rest => if c = ':' then true else if isHeaderNameChar c then hasNameColon rest else false

/-- The feed parser's test for a plausible header line:
^(From |[\x21-\x39\x3B-\x7E]*:|[\t ]). -/
def looksLikeHeader (l : List Char) : Bool :=
  l.take 5 = "From ".data ||
  (match l with
   | c :: _ => c = ' ' || c = '\t'
   | [] => false) ||
  hasNameColon l

/-- The feed parser collects leading header-like lines; a blank line or a
non-header line ends the header block (later lines become message
payload, which message.keys() never reports). -/
def collectHeaderLines : List (List Char) → List (List Char)
  | [] => []
  | l :: rest =>
    if (match l with | c :: _ => c = '\r' || c = '\n' | [] => true) then []
    else if looksLikeHeader l then l :: collectHeaderLines rest
    else []

def lstripBlank (l : List Char) : List Char :=
  l.dropWhile (fun c => c = ' ' ∨ c = '\t')

def rstripCrLf (l : List Char) : List Char :=
  (l.reverse.dropWhile (fun c => c = '\r' ∨ c = '\n')).reverse

/-- compat32 header_source_parse: name is the text before the first colon
of the first line; the value is the rest of that line stripped of leading
blanks/tabs, followed by the continuation lines verbatim, stripped of
trailing CR/LF. -/
def headerSourceParse (lines : List (List Char)) : String × String :=
  match lines with
  | [] => ("", "")
  | first :: contLines =>
    match splitOnce [':'] first with
    | some (name, after) =>
      (String.mk name, String.mk (rstripCrLf (lstripBlank after ++ contLines.flatten)))
    | none => (String.mk first, "")

/-- email.feedparser._parse_headers over the collected header lines: the
continuation-line accumulator machine.  Lines starting with a blank or
tab extend the pending header; "From " envelope lines and lines starting
with a colon are recorded as defects and skipped. -/
def parseHeaderLines : Option (List (List Char)) → List (List Char) → List (String × String)
  | none, [] => []
  | some pending, [] => [headerSourceParse pending]
  | cur, l :: rest =>
    if (match l with | c :: _ => c = ' ' || c = '\t' | [] => false) then
      match cur with
      | none => parseHeaderLines none rest
      | some pending => parseHeaderLines (some (pending ++ [l])) rest
    else
      let flushed := match cur with
        | none => []
        | some pending => [headerSourceParse pending]
      if l.take 5 = "From ".data then flushed ++ parseHeaderLines none rest
      else if l.head? = some ':' then flushed ++ parseHeaderLines none rest
      else flushed ++ parseHeaderLines (some [l]) rest

/-- message.keys(): every header name, in order, duplicates included. -/
def msgKeys (headers : List (String × String)) : List String :=
  headers.map Prod.fst

/-- message[name] (email.message.Message.get): the value of the first
header whose name matches case-insensitively, or None. -/
def msgGet (headers : List (String × String)) (name : String) : Option String :=
  (headers.find? (fun kv => lowerStr kv.1 = lowerStr name)).map Prod.snd

/-- JSON values occurring in this program: strings, the integer row
index, and None (unreachable in practice, see msgGet). -/
inductive JVal where
  | str (s : String)
  | num (n : Nat)
  | nullv
  deriving Repr, DecidableEq, Inhabited

/-- Python dict assignment d[k] = v: replace the value in place if the
key is present, else append the pair. -/
def dictSet : List (String × JVal) → String → JVal → List (String × JVal)
  | [], k, v => [(k, v)]
  | (k', v') :: rest, k, v =>
    if k' = k then (k', v) :: rest else (k', v') :: dictSet rest k v

/-- Python dict lookup d[k] as an Option. -/
def dictLookup (d : List (String × JVal)) (k : String) : Option JVal :=
  (d.find? (fun kv => kv.1 = k)).map Prod.snd

def msgGetJ (headers : List (String × String)) (name : String) : JVal :=
  match msgGet headers name with
  | some v => .str v
  | none => .nullv

/-- The loop `for key in message.keys(): res[key] = message[key]`
(lines 249-250). -/
def headersIntoDict (d : List (String × JVal)) (headers : List (String × String)) :
    List (String × JVal) :=
  (msgKeys headers).foldl (fun d k => dictSet d k (msgGetJ headers k)) d

/-- JsonFileFormatHandler.jsonFromHttp (lines 233-252). -/
def jsonFromHttp (s : String) : Except PyErr (List (String × JVal)) :=
  if s = "" then .ok []
  else
    match splitOnce ['\r', '\n'] s.data with
    | none => .error (.valueError "not enough values to unpack (expected 2, got 1)")
    | some (requestLine, rest) =>
      match splitOnce [' '] requestLine with
      | none => .error (.valueError "not enough values to unpack (expected 2, got 1)")
      | some (method, url) =>
        match readHeaderBlock 0 (readLines rest) with
        | .error e => .error e
        | .ok (consumed, remaining) =>
          let headers := parseHeaderLines none (collectHeaderLines consumed)
          let body := String.mk remaining.flatten
          let d0 : List (String × JVal) :=
            [("method", .str (String.mk method)), ("url", .str (String.mk url))]
          let d1 := headersIntoDict d0 headers
          .ok (dictSet d1 "body" (.str body))

/- ------------------------------------------------------------------
   json.dumps(dictionary, sort_keys=True, indent=1), as used by
   JsonFileFormatHandler.writeJsonFile (lines 254-256)
   ------------------------------------------------------------------ -/

def hex4 (n : Nat) : List Char :=
  [hexDigit (n / 4096 % 16), hexDigit (n / 256 % 16), hexDigit (n / 16 % 16), hexDigit (n % 16)]

/-- The default (ensure_ascii) JSON string escaping of one character. -/
def jsonEscapeChar (c : Char) : List Char :=
  if c = '"' then ['\\', '"']
  else if c = '\\' then ['\\', '\\']
  else if c = '\n' then ['\\', 'n']
  else if c = '\r' then ['\\', 'r']
  else if c = '\t' then ['\\', 't']
  else if c.toNat = 8 then ['\\', 'b']
  else if c.toNat = 12 then ['\\', 'f']
  else if c.toNat < 0x20 ∨ 0x7E < c.toNat then
    if c.toNat < 0x10000 then '\\' :: 'u' :: hex4 c.toNat
    else
      '\\' :: 'u' :: hex4 (0xD800 + (c.toNat - 0x10000) / 0x400) ++
      '\\' :: 'u' :: hex4 (0xDC00 + (c.toNat - 0x10000) % 0x400)
  else [c]

def jsonQuote (s : String) : List Char :=
  '"' :: (s.data.map jsonEscapeChar).flatten ++ ['"']

def dumpsJVal : JVal → List Char
  | .str s => jsonQuote s
  | .num n => (toString n).data
  | .nullv => "null".data

/-- Insert one entry into a key-sorted entry list (keys compared as
Python compares str, by code point). -/
def insEntry (p : String × JVal) : List (String × JVal) → List (String × JVal)
  | [] => [p]
  | q :: rest => if ltCharList p.1.data q.1.data then p :: q :: rest else q :: insEntry p rest

/-- sorted(d.items()) by key; dict keys are unique so ties are irrelevant. -/
def sortEntries (d : List (String × JVal)) : List (String × JVal) :=
  d.foldr insEntry []

/-- One "key": value line at indent level 1. -/
def dumpsEntryChars (p : String × JVal) : List Char :=
  ' ' :: jsonQuote p.1 ++ ':' :: ' ' :: dumpsJVal p.2

/-- json.dumps(d, sort_keys=True, indent=1). -/
def dumpsSorted (d : List (String × JVal)) : String :=
  match sortEntries d with
  | [] => "\x7b\x7d"
  | es => String.mk ("\x7b\n".data ++ List.intercalate ",\n".data (es.map dumpsEntryChars) ++ "\n\x7d".data)

/- ------------------------------------------------------------------
   RecordStream and the shared Converter driver
   (convert_to_output_file, lines 39-83)
   ------------------------------------------------------------------ -/

/-- One traffic item as accessed by convert_to_output_file.  The request
and response fields model presence of the nested '#text' value; when
absent the driver substitutes the literal string "None". -/
structure Record where
  time : String
  url : String
  hostText : String
  hostIp : String
  port : String
  protocol : String
  method : String
  path : String
  extension : String
  request : Option String
  status : String
  responselength : String
  mimetype : String
  response : Option String
  comment : String
  deriving Repr, DecidableEq, Inhabited

/-- The fifteen header_column calls of convert_to_output_file, in source
order (lines 43-57). -/
def driverHeaderNames : List String :=
  ["Time", "URL", "Hostname", "IP address", "Port", "Protocol", "Method", "Path",
   "Extension", "Request", "Status", "Response length", "MIME type", "Response", "Comment"]

/-- The request/response branch of the driver (lines 70-73 and 77-80):
present text is passed with encoded=True, absent text becomes the plain
string "None". -/
def blobEntry : Option String → String × Bool
  | some t => (t, true)
  | none => ("None", false)

/-- The fifteen row_column calls of convert_to_output_file for one item,
in source order (lines 61-81), as (content, encoded) pairs. -/
def driverRowEntries (r : Record) : List (String × Bool) :=
  [(r.time, false), (r.url, false), (r.hostText, false), (r.hostIp, false),
   (r.port, false), (r.protocol, false), (r.method, false), (r.path, false),
   (r.extension, false), blobEntry r.request, (r.status, false),
   (r.responselength, false), (r.mimetype, false), blobEntry r.response,
   (r.comment, false)]

/-- The shared `if content and encoded: content = base64decode(content)`
step of the CSV and JSON row_column methods. -/
def cellDecode (content : String) (encoded : Bool) : Except PyErr String :=
  if content ≠ "" ∧ encoded then base64decode content else .ok content

/-- Run a fallible transformation over a list, stopping at the first
error (the behavior of a Python loop over the row values). -/
def exceptMapList (f : α → Except PyErr β) : List α → Except PyErr (List β)
  | [] => .ok []
  | a :: as =>
    match f a with
    | .error e => .error e
    | .ok b =>
      match exceptMapList f as with
      | .error e => .error e
      | .ok bs => .ok (b :: bs)

/- ------------------------------------------------------------------
   CsvFormatHandler (lines 172-204)
   ------------------------------------------------------------------ -/

/-- CsvFormatHandler.row_column: decode a blob cell, then apply the
spreadsheet truncation. -/
def csvRowColumnValue (content : String) (encoded : Bool) : Except PyErr String :=
  (cellDecode content encoded).map truncCell

/-- The handler's persistent attributes: the accumulated header list and
the per-row cell accumulator. -/
structure CsvState where
  header : List String
  row : List String
  deriving Repr, DecidableEq, Inhabited

/-- set_output_file (fresh writer, header := []) followed by the fifteen
header_column calls. -/
def csvHeaderPhase (st : CsvState) : CsvState :=
  driverHeaderNames.foldl (fun s n => { s with header := s.header ++ [n] }) { st with header := [] }

/-- The fifteen row_column calls: each appends its transformed value to
the row accumulator. -/
def csvRowFold (st : CsvState) : List (String × Bool) → Except PyErr CsvState
  | [] => .ok st
  | e :: es =>
    match csvRowColumnValue e.1 e.2 with
    | .error err => .error err
    | .ok v => csvRowFold { st with row := st.row ++ [v] } es

/-- The cell values of one record's row, in driver order. -/
def csvCells (r : Record) : Except PyErr (List String) :=
  exceptMapList (fun e => csvRowColumnValue e.1 e.2) (driverRowEntries r)

/-- row_prefix, the fifteen row_column calls, and row_suffix: returns the
written row and the updated handler state. -/
def csvProcessRecord (st : CsvState) (r : Record) : Except PyErr (List String × CsvState) :=
  (csvRowFold { st with row := [] } (driverRowEntries r)).map (fun s => (s.row, s))

def csvRowsFrom (st : CsvState) : List Record → Except PyErr (List (List String) × CsvState)
  | [] => .ok ([], st)
  | r :: rest =>
    match csvProcessRecord st r with
    | .error e => .error e
    | .ok (row, st') =>
      match csvRowsFrom st' rest with
      | .error e => .error e
      | .ok (rows, st'') => .ok (row :: rows, st'')

/-- All rows written by one CSV run: the header row (written by
header_suffix) followed by one row per record. -/
def csvRows (rs : List Record) : Except PyErr (List (List String)) :=
  (csvRowsFrom (csvHeaderPhase ⟨[], []⟩) rs).map
    (fun p => (csvHeaderPhase ⟨[], []⟩).header :: p.1)

/-- csv.writer quoting with the excel dialect and QUOTE_MINIMAL: a field
is quoted when it contains the delimiter, the quote character, or a line
terminator character; quote characters are doubled. -/
def csvNeedsQuote (delim : Char) (f : String) : Bool :=
  f.data.any (fun c => c = delim || c = '"' || c = '\r' || c = '\n')

def csvQuoted (f : String) : String :=
  "\"" ++ String.mk ((f.data.map (fun c => if c = '"' then ['"', '"'] else [c])).flatten) ++ "\""

def csvField (delim : Char) (f : String) : String :=
  if csvNeedsQuote delim f then csvQuoted f else f

/-- csv.writer.writerow: a lone empty field is quoted so the row is not
empty; the line terminator is CRLF. -/
def csvRenderRow (delim : Char) (row : List String) : String :=
  if row = [""] then "\"\"\r\n"
  else String.intercalate (String.mk [delim]) (row.map (csvField delim)) ++ "\r\n"

def csvRender (delim : Char) (rows : List (List String)) : String :=
  String.join (rows.map (csvRenderRow delim))

/-- One whole CSV run started from an arbitrary pre-existing handler
state: the produced file text and the final handler state. -/
def csvRunFrom (st : CsvState) (delim : Char) (rs : List Record) :
    Except PyErr (String × CsvState) :=
  let st1 := csvHeaderPhase st
  (csvRowsFrom st1 rs).map (fun p => (csvRender delim (st1.header :: p.1), p.2))

/- ------------------------------------------------------------------
   HtmlFormatHandler (lines 108-168); each emitted list element is the
   payload of one print call (print appends one newline)
   ------------------------------------------------------------------ -/

def htmlDocHead : String :=
  "<!DOCTYPE html>\n<html>\n    <head>\n    <title>Burp Suite proxy history</title>\n    <style>\n    table \x7b\n        border-collapse: collapse;\n    \x7d\n    table, th, td \x7b\n        border: 1px solid black;\n        font-family: Arial, sans-serif;\n        padding: 5px;\n    \x7d\n    th \x7b\n        text-align: left;\n    \x7d\n    td \x7b\n        vertical-align: top;\n    \x7d\n    </style>\n    </head>\n    <body>\n        <table><thead><tr>\n"

def htmlDocFoot : String := "</tbody></table>\n</body></html>\n"

/-- HtmlFormatHandler.row_column: blob cells are decoded and escaped
inside a pre block; all other cells are interpolated verbatim. -/
def htmlRowColumn (content : String) (encoded : Bool) : Except PyErr String :=
  if encoded then
    (base64decode content).map (fun d => "<td><pre>" ++ htmlEscape d ++ "</pre></td>")
  else .ok ("<td>" ++ content ++ "</td>")

def htmlRecordLines (r : Record) : Except PyErr (List String) :=
  (exceptMapList (fun e => htmlRowColumn e.1 e.2) (driverRowEntries r)).map
    (fun cells => "<tr>" :: cells ++ ["</tr>"])

/-- The sequence of print payloads of one HTML run. -/
def htmlLines (rs : List Record) : Except PyErr (List String) :=
  (exceptMapList htmlRecordLines rs).map (fun rows =>
    htmlDocHead :: (driverHeaderNames.map (fun n => "<th>" ++ n ++ "</th>")) ++
      ["</tr></thead><tbody>"] ++ rows.flatten ++ [htmlDocFoot])

/-- The produced HTML document text. -/
def htmlConvert (rs : List Record) : Except PyErr String :=
  (htmlLines rs).map (fun ls => String.join (ls.map (fun l => l ++ "\n")))

/- ------------------------------------------------------------------
   JsonFileFormatHandler (lines 206-281)
   ------------------------------------------------------------------ -/

/-- The handler's attributes.  request/response/fileData/colIndex/header
are only created by assignment in Python; they are carried here from an
arbitrary initial value, with request/response as Option to model access
before assignment. -/
structure JsonState where
  baseFile : String
  rowIndex : Nat
  header : List String
  fileData : List (String × JVal)
  colIndex : Nat
  request : Option String
  response : Option String
  deriving Repr, DecidableEq, Inhabited

/-- Python s[:-4]. -/
def dropLast4 (s : String) : String := String.mk (s.data.take (s.data.length - 4))

/-- set_output_file (lines 216-218): strips the last four characters of
the output file name (the handler appended the five-character suffix
".json", so a trailing dot remains) and resets the row index to zero. -/
def jsonSetOutputFile (st : JsonState) (outName : String) : JsonState :=
  { st with baseFile := dropLast4 outName, rowIndex := 0 }

/-- header_prefix followed by the fifteen header_column calls. -/
def jsonHeaderPhase (st : JsonState) : JsonState :=
  driverHeaderNames.foldl (fun s n => { s with header := s.header ++ [n] }) { st with header := [] }

/-- row_prefix (lines 229-231). -/
def jsonRowBegin (st : JsonState) : JsonState :=
  { st with fileData := [("index", .num st.rowIndex)], colIndex := 0 }

/-- The routing part of row_column (lines 267-277): look the column name
up by position and store the value in the request slot, the response
slot, or the metadata mapping. -/
def jsonRouteCell (st : JsonState) (content : String) : Except PyErr JsonState :=
  match st.header[st.colIndex]? with
  | none => .error (.indexError "list index out of range")
  | some colName =>
    if colName = "Request" then .ok { st with request := some content, colIndex := st.colIndex + 1 }
    else if colName = "Response" then .ok { st with response := some content, colIndex := st.colIndex + 1 }
    else .ok { st with fileData := dictSet st.fileData colName (.str content), colIndex := st.colIndex + 1 }

def jsonRowColumn (st : JsonState) (e : String × Bool) : Except PyErr JsonState :=
  (cellDecode e.1 e.2).bind (jsonRouteCell st)

/-- The timestamp sanitization of row_suffix (lines 259-261): colons
removed, then spaces replaced by underscores. -/
def sanitizeTime (t : String) : String :=
  String.mk ((t.data.filter (fun c => c ≠ ':')).map (fun c => if c = ' ' then '_' else c))

/-- row_suffix (lines 258-265): derive the stem, write the metadata file
and the parsed request/response files, and advance the row index. -/
def jsonRowFinish (st : JsonState) : Except PyErr (List (String × String) × JsonState) :=
  match dictLookup st.fileData "Time" with
  | none => .error (.keyError "Time")
  | some (.num _) => .error (.typeError "replace is not defined on int")
  | some .nullv => .error (.typeError "replace is not defined on NoneType")
  | some (.str t) =>
    let stem := st.baseFile ++ "_" ++ sanitizeTime t ++ "_" ++ toString st.rowIndex
    match st.request with
    | none => .error (.attributeError "request")
    | some rq =>
      match jsonFromHttp rq with
      | .error e => .error e
      | .ok dreq =>
        match st.response with
        | none => .error (.attributeError "response")
        | some rsp =>
          match jsonFromHttp rsp with
          | .error e => .error e
          | .ok dres =>
            .ok ([(stem ++ ".json", dumpsSorted st.fileData),
                  (stem ++ ".req.json", dumpsSorted dreq),
                  (stem ++ ".res.json", dumpsSorted dres)],
                 { st with rowIndex := st.rowIndex + 1 })

/-- The fifteen row_column calls of the SplitJSON handler. -/
def jsonRowFold (st : JsonState) : List (String × Bool) → Except PyErr JsonState
  | [] => .ok st
  | e :: es =>
    match jsonRowColumn st e with
    | .error err => .error err
    | .ok st' => jsonRowFold st' es

/-- row_prefix, fifteen row_column calls, row_suffix: the three files
written for one record and the updated handler state. -/
def jsonProcessRecord (st : JsonState) (r : Record) :
    Except PyErr (List (String × String) × JsonState) :=
  match jsonRowFold (jsonRowBegin st) (driverRowEntries r) with
  | .error e => .error e
  | .ok st' => jsonRowFinish st'

def jsonRowsFrom (st : JsonState) : List Record → Except PyErr (List (String × String) × JsonState)
  | [] => .ok ([], st)
  | r :: rest =>
    match jsonProcessRecord st r with
    | .error e => .error e
    | .ok (files, st') =>
      match jsonRowsFrom st' rest with
      | .error e => .error e
      | .ok (more, st'') => .ok (files ++ more, st'')

/-- One whole SplitJSON run started from an arbitrary pre-existing
handler state: all written (file name, file text) pairs in order, and
the final handler state. -/
def jsonRunFrom (st : JsonState) (filename : String) (rs : List Record) :
    Except PyErr (List (String × String) × JsonState) :=
  jsonRowsFrom (jsonHeaderPhase (jsonSetOutputFile st (filename ++ ".json"))) rs

/- ------------------------------------------------------------------
   Derived descriptions used in theorem statements, and concrete
   fixtures used by witnesses and counterexamples
   ------------------------------------------------------------------ -/

/-- The file-name stem row_suffix derives for one record: handler base
file, sanitized timestamp, and row index, joined by underscores. -/
def metaStem (base : String) (i : Nat) (t : String) : String :=
  base ++ "_" ++ sanitizeTime t ++ "_" ++ toString i

/-- The metadata mapping accumulated for one record: the row index plus
the thirteen non-blob columns in driver order (proved below to be what
jsonProcessRecord writes). -/
def metaDict (i : Nat) (r : Record) : List (String × JVal) :=
  [("index", .num i), ("Time", .str r.time), ("URL", .str r.url),
   ("Hostname", .str r.hostText), ("IP address", .str r.hostIp), ("Port", .str r.port),
   ("Protocol", .str r.protocol), ("Method", .str r.method), ("Path", .str r.path),
   ("Extension", .str r.extension), ("Status", .str r.status),
   ("Response length", .str r.responselength), ("MIME type", .str r.mimetype),
   ("Comment", .str r.comment)]

/-- Non-strict key order used to express that serialized keys ascend. -/
def keyRel (p q : String × JVal) : Prop := ltCharList q.1.data p.1.data = false

/-- A record whose blobs are present and decode to the empty message. -/
def wRec : Record :=
  { time := "12:00:00"
    url := "u"
    hostText := "h"
    hostIp := "i"
    port := "80"
    protocol := "http"
    method := "GET"
    path := "/a"
    extension := "html"
    request := some ""
    status := "200"
    responselength := "3"
    mimetype := "text"
    response := some ""
    comment := "c" }

/-- A SplitJSON handler state as produced by the run's header phase. -/
def wSt : JsonState :=
  { baseFile := "base"
    rowIndex := 0
    header := driverHeaderNames
    fileData := []
    colIndex := 0
    request := none
    response := none }

/-- A record with both blob fields missing. -/
def nRec : Record := { wRec with request := none, response := none }

/-- A record whose request blob is not valid base64. -/
def badRec : Record := { wRec with request := some "a", response := none }

/-- A 32761-character string (above the spreadsheet cell limit). -/
def bigA : String := String.mk (List.replicate 32761 'a')

/-- A string of exactly 32760 characters (at the limit). -/
def exactB : String := String.mk (List.replicate 32760 'b')

/-- The computed result of processing wRec from wSt in the SplitJSON
handler (it succeeds; the fallback branch is never taken). -/
def c4Out : List (String × String) × JsonState :=
  match jsonProcessRecord wSt wRec with
  | .ok p => p
  | .error _ => ([], wSt)

/-- The same computed result, used by the C9 witness. -/
def c9Out : List (String × String) × JsonState :=
  match jsonProcessRecord wSt wRec with
  | .ok p => p
  | .error _ => ([], wSt)

/-- The computed rows of a one-record CSV run on nRec. -/
def c7Rows : List (List String) :=
  match csvRows [nRec] with
  | .ok rows => rows
  | .error _ => []

/- ==================================================================
   Theorems.  First, shared helper lemmas.
   ================================================================== -/

theorem cellDecode_notEnc (v : String) : cellDecode v false = .ok v := by
  simp [cellDecode]

theorem exceptMapList_length (f : α → Except PyErr β) :
    ∀ {as : List α} {bs : List β}, exceptMapList f as = .ok bs → bs.length = as.length := by
  intro as
  induction as with
  | nil => intro bs h; simp [exceptMapList] at h; simp [← h]
  | cons a as ih =>
    intro bs h
    simp only [exceptMapList] at h
    cases hf : f a with
    | error e => rw [hf] at h; cases h
    | ok b =>
      rw [hf] at h
      cases hrest : exceptMapList f as with
      | error e => rw [hrest] at h; cases h
      | ok bs' =>
        rw [hrest] at h
        cases h
        simp [ih hrest]

theorem dictLookup_dictSet (d : List (String × JVal)) (k' k : String) (v : JVal) :
    dictLookup (dictSet d k' v) k = if k' = k then some v else dictLookup d k := by
  induction d with
  | nil =>
    by_cases h : k' = k <;> simp [dictSet, dictLookup, List.find?, h]
  | cons p rest ih =>
    obtain ⟨a, b⟩ := p
    by_cases h1 : a = k'
    · subst h1
      by_cases h2 : a = k
      · subst h2
        simp [dictSet, dictLookup, List.find?]
      · simp [dictSet, dictLookup, List.find?, h2]
    · simp only [dictSet, if_neg h1]
      by_cases h2 : a = k
      · subst h2
        have h3 : ¬ k' = a := fun he => h1 he.symm
        simp [dictLookup, List.find?, h3]
      · by_cases h3 : k' = k <;>
          simp only [dictLookup, List.find?, h2, decide_eq_true_eq] <;>
          simpa [dictLookup, h2, h3] using ih

theorem dictLookup_foldl_skip (ks : List String) (g : String → JVal)
    (d : List (String × JVal)) (k : String) (hk : k ∉ ks) :
    dictLookup (ks.foldl (fun d k' => dictSet d k' (g k')) d) k = dictLookup d k := by
  induction ks generalizing d with
  | nil => rfl
  | cons a as ih =>
    have hka : a ≠ k := fun he => hk (by simp [he])
    have hkas : k ∉ as := fun hm => hk (by simp [hm])
    simp only [List.foldl]
    rw [ih _ hkas, dictLookup_dictSet, if_neg hka]

theorem dictLookup_foldl_assign (ks : List String) (g : String → JVal)
    (d : List (String × JVal)) (k : String) (hk : k ∈ ks) :
    dictLookup (ks.foldl (fun d k' => dictSet d k' (g k')) d) k = some (g k) := by
  induction ks generalizing d with
  | nil => cases hk
  | cons a as ih =>
    simp only [List.foldl]
    by_cases hmem : k ∈ as
    · exact ih _ hmem
    · have hak : a = k := by
        rcases List.mem_cons.mp hk with h | h
        · exact h.symm
        · exact absurd h hmem
      rw [dictLookup_foldl_skip _ _ _ _ hmem, dictLookup_dictSet, if_pos hak, hak]

theorem ltCharList_asymm : ∀ a b : List Char, ltCharList a b = true → ltCharList b a = false := by
  intro a
  induction a with
  | nil => intro b _; cases b <;> simp [ltCharList]
  | cons x as ih =>
    intro b hab
    cases b with
    | nil => simp [ltCharList] at hab
    | cons y bs =>
      simp only [ltCharList] at hab ⊢
      by_cases h1 : x.toNat < y.toNat
      · have h2 : ¬ y.toNat < x.toNat := by omega
        simp [h1, h2]
      · by_cases h2 : y.toNat < x.toNat
        · simp [h1, h2] at hab
        · simp [h1, h2] at hab ⊢
          exact ih bs hab

theorem ltCharList_trans :
    ∀ a b c : List Char, ltCharList a b = true → ltCharList b c = true → ltCharList a c = true := by
  intro a
  induction a with
  | nil =>
    intro b c hab hbc
    cases b with
    | nil => simp [ltCharList] at hab
    | cons y bs =>
      cases c with
      | nil => simp [ltCharList] at hbc
      | cons z cs => simp [ltCharList]
  | cons x as ih =>
    intro b c hab hbc
    cases b with
    | nil => simp [ltCharList] at hab
    | cons y bs =>
      cases c with
      | nil => simp [ltCharList] at hbc
      | cons z cs =>
        simp only [ltCharList] at hab hbc ⊢
        by_cases hxy : x.toNat < y.toNat <;> by_cases hyz : y.toNat < z.toNat
        · simp [show x.toNat < z.toNat by omega]
        · by_cases hzy : z.toNat < y.toNat
          · simp [hyz, hzy] at hbc
          · have : y.toNat = z.toNat := by omega
            simp [show x.toNat < z.toNat by omega]
        · by_cases hyx : y.toNat < x.toNat
          · simp [hxy, hyx] at hab
          · have : x.toNat = y.toNat := by omega
            simp [show x.toNat < z.toNat by omega]
        · by_cases hyx : y.toNat < x.toNat
          · simp [hxy, hyx] at hab
          · by_cases hzy : z.toNat < y.toNat
            · simp [hyz, hzy] at hbc
            · have hxz : ¬ x.toNat < z.toNat := by omega
              have hzx : ¬ z.toNat < x.toNat := by omega
              simp [hxy, hyx, hzy, hyz, hxz, hzx] at hab hbc ⊢
              exact ih bs cs hab hbc

theorem mem_insEntry {x p : String × JVal} :
    ∀ {l : List (String × JVal)}, x ∈ insEntry p l → x = p ∨ x ∈ l := by
  intro l
  induction l with
  | nil => intro h; simp [insEntry] at h; simp [h]
  | cons q rest ih =>
    intro h
    simp only [insEntry] at h
    by_cases hc : ltCharList p.1.data q.1.data = true
    · rw [if_pos hc] at h
      rcases List.mem_cons.mp h with h1 | h1
      · exact Or.inl h1
      · exact Or.inr h1
    · rw [if_neg hc] at h
      rcases List.mem_cons.mp h with h1 | h1
      · exact Or.inr (by simp [h1])
      · rcases ih h1 with h2 | h2
        · exact Or.inl h2
        · exact Or.inr (by simp [h2])

theorem pairwise_insEntry (p : String × JVal) :
    ∀ l : List (String × JVal), List.Pairwise keyRel l → List.Pairwise keyRel (insEntry p l) := by
  intro l
  induction l with
  | nil => intro _; simp [insEntry, List.Pairwise]
  | cons q rest ih =>
    intro hl
    rcases List.pairwise_cons.mp hl with ⟨hq, hrest⟩
    simp only [insEntry]
    by_cases hc : ltCharList p.1.data q.1.data = true
    · rw [if_pos hc]
      refine List.pairwise_cons.mpr ⟨?_, hl⟩
      intro x hx
      rcases List.mem_cons.mp hx with h1 | h1
      · subst h1
        exact ltCharList_asymm _ _ hc
      · -- keyRel p x: x is not below p because p < q and x is not below q
        unfold keyRel
        by_cases hxp : ltCharList x.1.data p.1.data = true
        · have : ltCharList x.1.data q.1.data = true := ltCharList_trans _ _ _ hxp hc
          rw [hq x h1] at this
          cases this
        · simpa using hxp
    · rw [if_neg hc]
      refine List.pairwise_cons.mpr ⟨?_, ih hrest⟩
      intro x hx
      rcases mem_insEntry hx with h1 | h1
      · subst h1
        unfold keyRel
        simpa using hc
      · exact hq x h1

theorem pairwise_sortEntries (d : List (String × JVal)) :
    List.Pairwise keyRel (sortEntries d) := by
  induction d with
  | nil => simp [sortEntries, List.Pairwise]
  | cons p rest ih =>
    simpa [sortEntries] using pairwise_insEntry p _ (by simpa [sortEntries] using ih)

theorem csvRowFold_eval :
    ∀ (es : List (String × Bool)) (st : CsvState),
      csvRowFold st es =
        (exceptMapList (fun e => csvRowColumnValue e.1 e.2) es).map
          (fun vs => { st with row := st.row ++ vs }) := by
  intro es
  induction es with
  | nil => intro st; simp [csvRowFold, exceptMapList, Except.map]
  | cons e es ih =>
    intro st
    simp only [csvRowFold, exceptMapList]
    cases h : csvRowColumnValue e.1 e.2 with
    | error err => simp [Except.map]
    | ok v =>
      cases hrest : exceptMapList (fun e => csvRowColumnValue e.1 e.2) es with
      | error err => simp [ih, hrest, Except.map]
      | ok vs => simp [ih, hrest, Except.map]

theorem csvProcessRecord_eval (st : CsvState) (r : Record) :
    csvProcessRecord st r = (csvCells r).map (fun vs => (vs, ⟨st.header, vs⟩)) := by
  rw [csvProcessRecord, csvRowFold_eval]
  cases h : exceptMapList (fun e => csvRowColumnValue e.1 e.2) (driverRowEntries r) with
  | error err => simp [csvCells, h, Except.map]
  | ok vs => simp [csvCells, h, Except.map]

theorem csvHeaderPhase_eval (st : CsvState) : csvHeaderPhase st = ⟨driverHeaderNames, st.row⟩ := by
  simp [csvHeaderPhase, driverHeaderNames, List.foldl]

theorem jsonHeaderPhase_eval (st : JsonState) :
    jsonHeaderPhase st = { st with header := driverHeaderNames } := by
  simp [jsonHeaderPhase, driverHeaderNames, List.foldl]

/-- Full evaluation of one SplitJSON record: decode the two blob cells,
parse them, and emit the three files; the metadata mapping holds the row
index plus the thirteen non-blob columns. -/
theorem jsonProcessRecord_eval (st : JsonState) (r : Record) (hh : st.header = driverHeaderNames) :
    jsonProcessRecord st r =
      match cellDecode (blobEntry r.request).1 (blobEntry r.request).2 with
      | .error e => .error e
      | .ok reqC =>
        match cellDecode (blobEntry r.response).1 (blobEntry r.response).2 with
        | .error e => .error e
        | .ok resC =>
          match jsonFromHttp reqC with
          | .error e => .error e
          | .ok dreq =>
            match jsonFromHttp resC with
            | .error e => .error e
            | .ok dres =>
              .ok ([(metaStem st.baseFile st.rowIndex r.time ++ ".json",
                      dumpsSorted (metaDict st.rowIndex r)),
                    (metaStem st.baseFile st.rowIndex r.time ++ ".req.json", dumpsSorted dreq),
                    (metaStem st.baseFile st.rowIndex r.time ++ ".res.json", dumpsSorted dres)],
                   { st with rowIndex := st.rowIndex + 1
                             fileData := metaDict st.rowIndex r
                             colIndex := 15
                             request := some reqC
                             response := some resC }) := by
  rcases hq : cellDecode (blobEntry r.request).1 (blobEntry r.request).2 with e1 | reqC
  · simp [jsonProcessRecord, driverRowEntries, jsonRowFold, jsonRowColumn, jsonRowBegin,
      jsonRouteCell, cellDecode_notEnc, hh, hq, driverHeaderNames, dictSet, Except.bind]
  · rcases hr : cellDecode (blobEntry r.response).1 (blobEntry r.response).2 with e2 | resC
    · simp [jsonProcessRecord, driverRowEntries, jsonRowFold, jsonRowColumn, jsonRowBegin,
        jsonRouteCell, cellDecode_notEnc, hh, hq, hr, driverHeaderNames, dictSet, Except.bind]
    · rcases hjq : jsonFromHttp reqC with e3 | dreq
      · simp [jsonProcessRecord, driverRowEntries, jsonRowFold, jsonRowColumn, jsonRowBegin,
          jsonRouteCell, cellDecode_notEnc, hh, hq, hr, hjq, driverHeaderNames, dictSet,
          Except.bind, jsonRowFinish, dictLookup, List.find?, metaStem, metaDict]
      · rcases hjr : jsonFromHttp resC with e4 | dres
        · simp [jsonProcessRecord, driverRowEntries, jsonRowFold, jsonRowColumn, jsonRowBegin,
            jsonRouteCell, cellDecode_notEnc, hh, hq, hr, hjq, hjr, driverHeaderNames, dictSet,
            Except.bind, jsonRowFinish, dictLookup, List.find?, metaStem, metaDict]
        · simp [jsonProcessRecord, driverRowEntries, jsonRowFold, jsonRowColumn, jsonRowBegin,
            jsonRouteCell, cellDecode_notEnc, hh, hq, hr, hjq, hjr, driverHeaderNames, dictSet,
            Except.bind, jsonRowFinish, dictLookup, List.find?, metaStem, metaDict]

theorem truncCell_literal_None : truncCell "None" = "None" := rfl

/- ==================================================================
   Claim theorems
   ================================================================== -/

/-- Claim C1, counterexample: on the spec's round-trip input the parser
stores the whole remainder of the start line after the first space as
"url", so the url is "/a HTTP/1.1", not the claimed "/a". -/
theorem C1_counterexample :
    jsonFromHttp "GET /a HTTP/1.1\r\nHost: x\r\n\r\nbody" =
      .ok [("method", .str "GET"), ("url", .str "/a HTTP/1.1"),
           ("Host", .str "x"), ("body", .str "body")]
  ∧ dictLookup [("method", JVal.str "GET"), ("url", JVal.str "/a HTTP/1.1"),
      ("Host", JVal.str "x"), ("body", JVal.str "body")] "url" ≠ some (JVal.str "/a") :=
  ⟨rfl, by decide⟩

/-- Claim C1, amended: on input "GET /a HTTP/1.1\r\nHost: x\r\n\r\nbody"
the parser yields method="GET", url="/a HTTP/1.1" (the start line's
remainder after the first space, HTTP version included), headers
Host -> x and body="body"; on empty input it yields an empty structure
without raising an error. -/
theorem C1_amended :
    jsonFromHttp "GET /a HTTP/1.1\r\nHost: x\r\n\r\nbody" =
      .ok [("method", .str "GET"), ("url", .str "/a HTTP/1.1"),
           ("Host", .str "x"), ("body", .str "body")]
  ∧ jsonFromHttp "" = .ok [] :=
  ⟨rfl, rfl⟩

/-- Claim C3, counterexample: base64decode raises on the input "a"
(binascii rejects a lone data character), and a record whose request
blob is "a" aborts the whole CSV conversion with that error. -/
theorem C3_counterexample :
    base64decode "a" = .error (.binasciiError
      "Invalid base64-encoded string: number of data characters cannot be 1 more than a multiple of 4")
  ∧ csvRows [badRec] = .error (.binasciiError
      "Invalid base64-encoded string: number of data characters cannot be 1 more than a multiple of 4") :=
  ⟨rfl, rfl⟩

/-- Claim C3, amended: base64decode fails exactly when the base64 stage
fails; whenever the base64 stage succeeds, the UTF-8 stage never fails
and returns the lossy backslash-escaped decode of the bytes. -/
theorem C3_amended (s : String) :
    ((∃ e, base64decode s = .error e) ↔ (∃ e, b64decodeBytes s = .error e))
  ∧ ∀ bs, b64decodeBytes s = .ok bs →
      base64decode s = .ok (String.mk (decodeUtf8Lossy bs)) := by
  constructor
  · cases h : b64decodeBytes s with
    | error e => simp [base64decode, h, Except.map]
    | ok bs => simp [base64decode, h, Except.map]
  · intro bs h
    rw [base64decode, h]
    rfl

/-- Claim C3 witness: "/w==" decodes to the single byte 0xFF, which is
not valid UTF-8 and is rendered as the backslash escape \xff. -/
theorem C3_amended_witness :
    b64decodeBytes "/w==" = .ok [255] ∧ base64decode "/w==" = .ok "\\xff" :=
  ⟨rfl, (C3_amended "/w==").2 [255] rfl⟩

/-- Claim C5: in the CSV strategy, a cell value that exceeds 32760
characters after blob decoding is replaced by its first 32744 characters
plus the literal suffix ..[TRUNCATED!], and a value of exactly 32760
characters is emitted unchanged. -/
theorem C5_truncation (content : String) (encoded : Bool) (c : String)
    (h : cellDecode content encoded = .ok c) :
    (32760 < c.length →
       csvRowColumnValue content encoded =
         .ok (String.mk (c.data.take 32744) ++ "..[TRUNCATED!]"))
  ∧ (c.length = 32760 → csvRowColumnValue content encoded = .ok c) := by
  constructor
  · intro hlen
    have hne : c ≠ "" := by
      intro he
      subst he
      simp at hlen
    rw [csvRowColumnValue, h]
    simp [Except.map, truncCell, hne, hlen]
  · intro hlen
    have hnl : ¬ 32760 < c.length := by omega
    rw [csvRowColumnValue, h]
    simp [Except.map, truncCell, hnl]

/-- Claim C5 witness: a 32761-character cell is truncated to 32744
characters plus the marker; a 32760-character cell is unchanged. -/
theorem C5_truncation_witness :
    csvRowColumnValue bigA false = .ok (String.mk (bigA.data.take 32744) ++ "..[TRUNCATED!]")
  ∧ csvRowColumnValue exactB false = .ok exactB := by
  constructor
  · exact (C5_truncation bigA false bigA (cellDecode_notEnc bigA)).1
      (by show 32760 < (List.replicate 32761 'a').length
          rw [List.length_replicate]
          omega)
  · exact (C5_truncation exactB false exactB (cellDecode_notEnc exactB)).2
      (by show (List.replicate 32760 'b').length = 32760
          rw [List.length_replicate])

/-- Claim C6, counterexample: with the duplicated header name A the
resulting mapping binds A to the first occurrence's value "1", not the
last occurrence's "2". -/
theorem C6_counterexample :
    jsonFromHttp "GET /a HTTP/1.1\r\nA: 1\r\nA: 2\r\n\r\n" =
      .ok [("method", .str "GET"), ("url", .str "/a HTTP/1.1"),
           ("A", .str "1"), ("body", .str "")]
  ∧ dictLookup [("method", JVal.str "GET"), ("url", JVal.str "/a HTTP/1.1"),
      ("A", JVal.str "1"), ("body", JVal.str "")] "A" = some (JVal.str "1")
  ∧ some (JVal.str "1") ≠ some (JVal.str "2") :=
  ⟨rfl, rfl, by decide⟩

/-- Claim C6, amended: when the header block contains the same name more
than once, the dictionary built from message.keys()/message[key] binds
the name to the value of its first (case-insensitive) occurrence,
because every duplicate key assignment re-reads the first match. -/
theorem C6_amended (hs : List (String × String)) (d : List (String × JVal)) (k v : String)
    (hfirst : msgGet hs k = some v) (hmem : k ∈ msgKeys hs) :
    dictLookup (headersIntoDict d hs) k = some (.str v) := by
  rw [headersIntoDict, dictLookup_foldl_assign (msgKeys hs) (msgGetJ hs) d k hmem]
  simp [msgGetJ, hfirst]

/-- Claim C6 witness: headers A->1, A->2 yield the binding A->1. -/
theorem C6_amended_witness :
    msgGet [("A", "1"), ("A", "2")] "A" = some "1"
  ∧ dictLookup (headersIntoDict [] [("A", "1"), ("A", "2")]) "A" = some (JVal.str "1") :=
  ⟨rfl, C6_amended [("A", "1"), ("A", "2")] [] "A" "1" rfl (by decide)⟩

/-- Claim C10: the HTML strategy escapes only the two decoded blob cells;
every non-blob cell is interpolated into the td element verbatim, so
markup characters in those values reach the document unescaped. -/
theorem C10_escape_only_blobs (content : String) :
    htmlRowColumn content false = .ok ("<td>" ++ content ++ "</td>")
  ∧ ∀ d, base64decode content = .ok d →
      htmlRowColumn content true = .ok ("<td><pre>" ++ htmlEscape d ++ "</pre></td>") := by
  constructor
  · rfl
  · intro d h
    rw [htmlRowColumn]
    simp [h, Except.map]

/-- Claim C10 witness: a non-blob cell containing markup passes through
verbatim, while the blob "PGI+" (base64 of the markup text) is escaped. -/
theorem C10_escape_only_blobs_witness :
    htmlRowColumn "<&x>" false = .ok "<td><&x></td>"
  ∧ htmlRowColumn "PGI+" true = .ok "<td><pre>&lt;b&gt;</pre></td>" :=
  ⟨(C10_escape_only_blobs "<&x>").1, (C10_escape_only_blobs "PGI+").2 "<b>" rfl⟩

/-- Claim C2, counterexample: a record with both blob fields missing
makes the SplitJSON handler raise (jsonFromHttp cannot split the
sentinel string "None" at a CRLF), so processing does not complete. -/
theorem C2_counterexample :
    jsonProcessRecord wSt nRec =
      .error (.valueError "not enough values to unpack (expected 2, got 1)") := rfl

/-- Claim C2, amended: a record with missing request/response text is
rendered with the literal "None" cells by the CSV and HTML strategies
and processing completes there, but in the SplitJSON strategy the
sentinel "None" is routed into the request/response slot and the record
fails with an error. -/
theorem C2_missing_blob (r : Record) (st : JsonState)
    (hreq : r.request = none) (hres : r.response = none)
    (hh : st.header = driverHeaderNames) :
    csvCells r = .ok [truncCell r.time, truncCell r.url, truncCell r.hostText,
      truncCell r.hostIp, truncCell r.port, truncCell r.protocol, truncCell r.method,
      truncCell r.path, truncCell r.extension, "None", truncCell r.status,
      truncCell r.responselength, truncCell r.mimetype, "None", truncCell r.comment]
  ∧ htmlRecordLines r = .ok ("<tr>" ::
      ["<td>" ++ r.time ++ "</td>", "<td>" ++ r.url ++ "</td>",
       "<td>" ++ r.hostText ++ "</td>", "<td>" ++ r.hostIp ++ "</td>",
       "<td>" ++ r.port ++ "</td>", "<td>" ++ r.protocol ++ "</td>",
       "<td>" ++ r.method ++ "</td>", "<td>" ++ r.path ++ "</td>",
       "<td>" ++ r.extension ++ "</td>", "<td>None</td>",
       "<td>" ++ r.status ++ "</td>", "<td>" ++ r.responselength ++ "</td>",
       "<td>" ++ r.mimetype ++ "</td>", "<td>None</td>",
       "<td>" ++ r.comment ++ "</td>"] ++ ["</tr>"])
  ∧ ∃ e, jsonProcessRecord st r = .error e := by
  have hnone : jsonFromHttp "None" =
      .error (.valueError "not enough values to unpack (expected 2, got 1)") := rfl
  refine ⟨?_, ?_, ?_⟩
  · simp [csvCells, driverRowEntries, hreq, hres, blobEntry, exceptMapList,
      csvRowColumnValue, cellDecode_notEnc, Except.map, truncCell_literal_None]
  · simp [htmlRecordLines, driverRowEntries, hreq, hres, blobEntry, exceptMapList,
      htmlRowColumn, Except.map]
  · rw [jsonProcessRecord_eval st r hh]
    simp [hreq, hres, blobEntry, cellDecode_notEnc, hnone]

/-- Claim C2 witness: the concrete record with both blobs missing. -/
theorem C2_missing_blob_witness :
    csvCells nRec = .ok ["12:00:00", "u", "h", "i", "80", "http", "GET", "/a", "html",
      "None", "200", "3", "text", "None", "c"]
  ∧ htmlRecordLines nRec = .ok ["<tr>", "<td>12:00:00</td>", "<td>u</td>", "<td>h</td>",
      "<td>i</td>", "<td>80</td>", "<td>http</td>", "<td>GET</td>", "<td>/a</td>",
      "<td>html</td>", "<td>None</td>", "<td>200</td>", "<td>3</td>", "<td>text</td>",
      "<td>None</td>", "<td>c</td>", "</tr>"]
  ∧ ∃ e, jsonProcessRecord wSt nRec = .error e := by
  have h := C2_missing_blob nRec wSt rfl rfl rfl
  exact ⟨h.1, h.2.1, h.2.2⟩

/-- Claim C4: a successfully processed SplitJSON record with row index i
and timestamp T produces exactly the three files stem.json,
stem.req.json and stem.res.json, where the stem is the handler base file
plus the sanitized timestamp plus i; the row index advances by exactly
one, and every file body is the sorted-key pretty serialization of a
mapping. -/
theorem C4_three_files (st : JsonState) (r : Record) {out : List (String × String)}
    {st' : JsonState} (hh : st.header = driverHeaderNames)
    (hok : jsonProcessRecord st r = .ok (out, st')) :
    out.map Prod.fst =
      [metaStem st.baseFile st.rowIndex r.time ++ ".json",
       metaStem st.baseFile st.rowIndex r.time ++ ".req.json",
       metaStem st.baseFile st.rowIndex r.time ++ ".res.json"]
  ∧ metaStem st.baseFile st.rowIndex r.time =
      st.baseFile ++ "_" ++ sanitizeTime r.time ++ "_" ++ toString st.rowIndex
  ∧ st'.rowIndex = st.rowIndex + 1
  ∧ ∀ p ∈ out, ∃ d, p.2 = dumpsSorted d ∧ List.Pairwise keyRel (sortEntries d) := by
  rw [jsonProcessRecord_eval st r hh] at hok
  split at hok
  · simp at hok
  split at hok
  · simp at hok
  split at hok
  · simp at hok
  split at hok
  · simp at hok
  rename_i rsC e2 x3 dreqD e3 x4 dresD e4
  simp only [Except.ok.injEq, Prod.mk.injEq] at hok
  obtain ⟨ho, hs⟩ := hok
  subst ho
  subst hs
  refine ⟨by simp, rfl, by simp, ?_⟩
  intro p hp
  simp only [List.mem_cons, List.not_mem_nil, or_false] at hp
  rcases hp with h | h | h
  · subst h
    exact ⟨metaDict st.rowIndex r, rfl, pairwise_sortEntries _⟩
  · subst h
    exact ⟨dreqD, rfl, pairwise_sortEntries _⟩
  · subst h
    exact ⟨dresD, rfl, pairwise_sortEntries _⟩

/-- Claim C4 witness: processing the concrete record wRec from the
concrete state wSt yields the three expected file names and advances the
row index from 0 to 1. -/
theorem C4_three_files_witness :
    jsonProcessRecord wSt wRec = .ok (c4Out.1, c4Out.2)
  ∧ c4Out.1.map Prod.fst =
      ["base_120000_0.json", "base_120000_0.req.json", "base_120000_0.res.json"]
  ∧ c4Out.2.rowIndex = 1 := by
  have hok : jsonProcessRecord wSt wRec = .ok (c4Out.1, c4Out.2) := rfl
  have h := C4_three_files wSt wRec rfl hok
  exact ⟨hok, h.1, h.2.2.1⟩

/-- Claim C9: the first file written for a SplitJSON record is the
metadata file stem.json, whose mapping is exactly the row index entry
"index" plus the thirteen non-blob columns keyed by column name; it
contains neither a "Request" nor a "Response" key. -/
theorem C9_metadata_file (st : JsonState) (r : Record) {out : List (String × String)}
    {st' : JsonState} (hh : st.header = driverHeaderNames)
    (hok : jsonProcessRecord st r = .ok (out, st')) :
    out.head? = some (metaStem st.baseFile st.rowIndex r.time ++ ".json",
      dumpsSorted (metaDict st.rowIndex r))
  ∧ metaDict st.rowIndex r =
      [("index", .num st.rowIndex), ("Time", .str r.time), ("URL", .str r.url),
       ("Hostname", .str r.hostText), ("IP address", .str r.hostIp), ("Port", .str r.port),
       ("Protocol", .str r.protocol), ("Method", .str r.method), ("Path", .str r.path),
       ("Extension", .str r.extension), ("Status", .str r.status),
       ("Response length", .str r.responselength), ("MIME type", .str r.mimetype),
       ("Comment", .str r.comment)]
  ∧ dictLookup (metaDict st.rowIndex r) "index" = some (.num st.rowIndex)
  ∧ "Request" ∉ (metaDict st.rowIndex r).map Prod.fst
  ∧ "Response" ∉ (metaDict st.rowIndex r).map Prod.fst := by
  rw [jsonProcessRecord_eval st r hh] at hok
  split at hok
  · simp at hok
  split at hok
  · simp at hok
  split at hok
  · simp at hok
  split at hok
  · simp at hok
  simp only [Except.ok.injEq, Prod.mk.injEq] at hok
  obtain ⟨ho, hs⟩ := hok
  subst ho
  subst hs
  refine ⟨rfl, rfl, rfl, ?_, ?_⟩ <;> simp [metaDict]

/-- Claim C9 witness: the metadata file of the concrete record wRec. -/
theorem C9_metadata_file_witness :
    jsonProcessRecord wSt wRec = .ok (c9Out.1, c9Out.2)
  ∧ c9Out.1.head? = some ("base_120000_0.json", dumpsSorted (metaDict 0 wRec))
  ∧ "Request" ∉ (metaDict 0 wRec).map Prod.fst
  ∧ "Response" ∉ (metaDict 0 wRec).map Prod.fst := by
  have hok : jsonProcessRecord wSt wRec = .ok (c9Out.1, c9Out.2) := rfl
  have h := C9_metadata_file wSt wRec rfl hok
  exact ⟨hok, h.1, h.2.2.2.1, h.2.2.2.2⟩

theorem driverRowEntries_length (r : Record) : (driverRowEntries r).length = 15 := by
  simp [driverRowEntries]

theorem csvRowsFrom_shape :
    ∀ (rs : List Record) (st : CsvState) (rows : List (List String)) (stEnd : CsvState),
      csvRowsFrom st rs = .ok (rows, stEnd) →
      rows.length = rs.length ∧ ∀ row ∈ rows, row.length = 15 := by
  intro rs
  induction rs with
  | nil =>
    intro st rows stEnd h
    simp only [csvRowsFrom, Except.ok.injEq, Prod.mk.injEq] at h
    obtain ⟨h1, _⟩ := h
    subst h1
    simp
  | cons r rest ih =>
    intro st rows stEnd h
    simp only [csvRowsFrom] at h
    split at h
    · simp at h
    split at h
    · simp at h
    rename_i p row st1 heqA q rows1 st2 heqB
    simp only [Except.ok.injEq, Prod.mk.injEq] at h
    obtain ⟨h1, _⟩ := h
    subst h1
    have hcells : csvCells r = .ok row := by
      rw [csvProcessRecord_eval] at heqA
      cases hc : csvCells r with
      | error e => rw [hc] at heqA; simp [Except.map] at heqA
      | ok vs =>
        rw [hc] at heqA
        simp only [Except.map, Except.ok.injEq, Prod.mk.injEq] at heqA
        rw [heqA.1]
    have hlen : row.length = 15 := by
      rw [csvCells] at hcells
      have hl := exceptMapList_length (fun e : String × Bool => csvRowColumnValue e.1 e.2) hcells
      simpa [driverRowEntries] using hl
    obtain ⟨ihl, ihm⟩ := ih st1 rows1 st2 heqB
    refine ⟨by simp [ihl], ?_⟩
    intro row' hrow'
    rcases List.mem_cons.mp hrow' with hx | hx
    · subst hx; exact hlen
    · exact ihm row' hx

/-- Claim C7: the header is always exactly the fifteen canonical column
names in the fixed order, a record's row always supplies its fifteen
values in the same order, every successful CSV run writes the header row
first and gives every row fifteen cells, every successful HTML run emits
the fifteen th cells right after the document head and seventeen print
calls per record row, and the SplitJSON handler always captures exactly
that header list. -/
theorem C7_fixed_columns :
    driverHeaderNames = ["Time", "URL", "Hostname", "IP address", "Port", "Protocol", "Method",
      "Path", "Extension", "Request", "Status", "Response length", "MIME type", "Response",
      "Comment"]
  ∧ (∀ r : Record, (driverRowEntries r).map Prod.fst =
      [r.time, r.url, r.hostText, r.hostIp, r.port, r.protocol, r.method, r.path, r.extension,
       (blobEntry r.request).1, r.status, r.responselength, r.mimetype,
       (blobEntry r.response).1, r.comment])
  ∧ (∀ (rs : List Record) (rows : List (List String)), csvRows rs = .ok rows →
      rows.head? = some driverHeaderNames ∧ rows.length = rs.length + 1 ∧
        ∀ row ∈ rows, row.length = 15)
  ∧ (∀ (rs : List Record) (lines : List String), htmlLines rs = .ok lines →
      ∃ body, lines = htmlDocHead ::
        (driverHeaderNames.map (fun n => "<th>" ++ n ++ "</th>")) ++
        ["</tr></thead><tbody>"] ++ body)
  ∧ (∀ (r : Record) (ls : List String), htmlRecordLines r = .ok ls → ls.length = 17)
  ∧ (∀ st : JsonState, (jsonHeaderPhase st).header = driverHeaderNames) := by
  refine ⟨rfl, by intro r; simp [driverRowEntries], ?_, ?_, ?_, ?_⟩
  · intro rs rows h
    rw [csvRows] at h
    cases hm : csvRowsFrom (csvHeaderPhase ⟨[], []⟩) rs with
    | error e => rw [hm] at h; simp [Except.map] at h
    | ok p =>
      rw [hm] at h
      simp only [Except.map, Except.ok.injEq] at h
      obtain ⟨rowsData, stEnd⟩ := p
      obtain ⟨hl, hm15⟩ := csvRowsFrom_shape rs _ rowsData stEnd hm
      subst h
      rw [csvHeaderPhase_eval]
      refine ⟨rfl, by simp [hl], ?_⟩
      intro row hrow
      rcases List.mem_cons.mp hrow with hx | hx
      · subst hx; rfl
      · exact hm15 row hx
  · intro rs lines h
    rw [htmlLines] at h
    cases hm : exceptMapList htmlRecordLines rs with
    | error e => rw [hm] at h; simp [Except.map] at h
    | ok rows =>
      rw [hm] at h
      simp only [Except.map, Except.ok.injEq] at h
      exact ⟨rows.flatten ++ [htmlDocFoot], by rw [← h]; simp⟩
  · intro r ls h
    rw [htmlRecordLines] at h
    cases hm : exceptMapList (fun e => htmlRowColumn e.1 e.2) (driverRowEntries r) with
    | error e => rw [hm] at h; simp [Except.map] at h
    | ok cells =>
      rw [hm] at h
      simp only [Except.map, Except.ok.injEq] at h
      have hc := exceptMapList_length (fun e : String × Bool => htmlRowColumn e.1 e.2) hm
      rw [← h]
      simp [hc, driverRowEntries_length]
  · intro st
    rw [jsonHeaderPhase_eval]

/-- Claim C7 witness: a concrete one-record CSV run has the header row
first, two rows in total, and fifteen cells in every row. -/
theorem C7_fixed_columns_witness :
    csvRows [nRec] = .ok c7Rows
  ∧ c7Rows.head? = some driverHeaderNames
  ∧ c7Rows.length = 2
  ∧ c7Rows.all (fun row => row.length == 15) = true := by
  have hok : csvRows [nRec] = .ok c7Rows := rfl
  obtain ⟨h1, h2, h3⟩ := C7_fixed_columns.2.2.1 [nRec] c7Rows hok
  refine ⟨hok, h1, by simpa using h2, ?_⟩
  rw [List.all_eq_true]
  intro row hrow
  simpa using h3 row hrow

theorem csvRowsFrom_rowIndep :
    ∀ (rs : List Record) (hd x y : List String),
      (csvRowsFrom ⟨hd, x⟩ rs).map Prod.fst = (csvRowsFrom ⟨hd, y⟩ rs).map Prod.fst := by
  intro rs
  induction rs with
  | nil => intro hd x y; rfl
  | cons r rest ih =>
    intro hd x y
    simp only [csvRowsFrom, csvProcessRecord_eval]

theorem jsonProcessRecord_stateIndep (r : Record) (t₁ t₂ : JsonState)
    (hb : t₁.baseFile = t₂.baseFile) (hi : t₁.rowIndex = t₂.rowIndex)
    (h1 : t₁.header = driverHeaderNames) (h2 : t₂.header = driverHeaderNames) :
    jsonProcessRecord t₁ r = jsonProcessRecord t₂ r := by
  obtain ⟨b1, i1, hd1, fd1, ci1, rq1, rs1⟩ := t₁
  obtain ⟨b2, i2, hd2, fd2, ci2, rq2, rs2⟩ := t₂
  simp only at hb hi h1 h2
  subst hb
  subst hi
  subst h1
  subst h2
  rw [jsonProcessRecord_eval _ r rfl, jsonProcessRecord_eval _ r rfl]

theorem jsonRowsFrom_stateIndep :
    ∀ (rs : List Record) (t₁ t₂ : JsonState),
      t₁.baseFile = t₂.baseFile → t₁.rowIndex = t₂.rowIndex →
      t₁.header = driverHeaderNames → t₂.header = driverHeaderNames →
      (jsonRowsFrom t₁ rs).map Prod.fst = (jsonRowsFrom t₂ rs).map Prod.fst := by
  intro rs
  induction rs with
  | nil => intro t₁ t₂ _ _ _ _; rfl
  | cons r rest ih =>
    intro t₁ t₂ hb hi h1 h2
    simp only [jsonRowsFrom]
    rw [jsonProcessRecord_stateIndep r t₁ t₂ hb hi h1 h2]

/-- Claim C8: each strategy's run output is a function of the input
records, the file name and the delimiter alone: running from any two
pre-existing handler states (in particular, running twice in a row, with
the row index reset to zero by each run's output-file setup) produces
identical output artifacts. -/
theorem C8_deterministic :
    (∀ (s₁ s₂ : CsvState) (delim : Char) (rs : List Record),
       (csvRunFrom s₁ delim rs).map Prod.fst = (csvRunFrom s₂ delim rs).map Prod.fst)
  ∧ (∀ (t₁ t₂ : JsonState) (fn : String) (rs : List Record),
       (jsonRunFrom t₁ fn rs).map Prod.fst = (jsonRunFrom t₂ fn rs).map Prod.fst)
  ∧ (∀ rs : List Record, htmlConvert rs = htmlConvert rs) := by
  refine ⟨?_, ?_, fun _ => rfl⟩
  · intro s₁ s₂ delim rs
    rw [csvRunFrom, csvRunFrom, csvHeaderPhase_eval, csvHeaderPhase_eval]
    have key := csvRowsFrom_rowIndep rs driverHeaderNames s₁.row s₂.row
    cases hA : csvRowsFrom ⟨driverHeaderNames, s₁.row⟩ rs with
    | error eA =>
      cases hB : csvRowsFrom ⟨driverHeaderNames, s₂.row⟩ rs with
      | error eB =>
        rw [hA, hB] at key
        simp only [Except.map, Except.error.injEq] at key
        simp [Except.map, key]
      | ok qB => rw [hA, hB] at key; simp [Except.map] at key
    | ok qA =>
      cases hB : csvRowsFrom ⟨driverHeaderNames, s₂.row⟩ rs with
      | error eB => rw [hA, hB] at key; simp [Except.map] at key
      | ok qB =>
        rw [hA, hB] at key
        simp only [Except.map, Except.ok.injEq] at key
        simp [Except.map, key]
  · intro t₁ t₂ fn rs
    rw [jsonRunFrom, jsonRunFrom]
    apply jsonRowsFrom_stateIndep <;>
      simp [jsonHeaderPhase_eval, jsonSetOutputFile]

end BurpConvert
